import Mathlib

set_option maxRecDepth 16000

/-!
Verification development for the locg-api scraping core.

The TypeScript sources are shallowly embedded:
* pure string helpers are translated character-by-character on `List Char`;
* the JavaScript runtime primitives `parseInt`, `parseFloat`, `trim`,
  `includes` and the regular-expression operations actually used by the code
  are modelled as executable Lean functions with the same observable
  behaviour on the call sites that appear in the sources;
* the runtime date parser (`new Date(string)`) and the clock (`Date.now()`,
  `new Date()`) are parameters of the embedding (`parse : String → Option Int`
  returning epoch milliseconds, and `now : Int` / `now : Nat`);
* cheerio's HTML parsing is an external collaborator; extraction functions
  are embedded as total functions over an explicit DOM tree `Node`, and the
  selector operations used by the code are implemented on that tree;
* the network is a parameter `net : Nat → Except Err String` giving the
  outcome of each successive fetch attempt.
-/

/-! ### JavaScript text primitives -/

/-- Whitespace recognised by the JS `\s` class / `trim` (ASCII part). -/
def isJsWs (c : Char) : Bool :=
  c == ' ' || c == '\t' || c == '\n' || c == '\r' || c == '\x0b' || c == '\x0c'

def startsWithL : List Char → List Char → Bool
  | _, [] => true
  | [], _ :: _ => false
  | c :: l, p :: ps => c == p && startsWithL l ps

/-- `String.prototype.includes` on char lists. -/
def containsL : List Char → List Char → Bool
  | [], pat => startsWithL [] pat
  | c :: rest, pat => startsWithL (c :: rest) pat || containsL rest pat

def containsS (s pat : String) : Bool := containsL s.data pat.data

def startsWithS (s pat : String) : Bool := startsWithL s.data pat.data

/-- `String.prototype.trim`. -/
def jsTrimL (l : List Char) : List Char :=
  (((l.dropWhile isJsWs).reverse).dropWhile isJsWs).reverse

def jsTrimS (s : String) : String := ⟨jsTrimL s.data⟩

/-- Fuel-driven engine for `String.prototype.replace` with a global literal
pattern: leftmost occurrences replaced, scanning resumes after each
replacement.  Called with `fuel = l.length` and a nonempty pattern, the fuel
never runs out before the input does. -/
def replaceAllGo (pat rep : List Char) : Nat → List Char → List Char
  | _, [] => []
  | 0, l => l
  | fuel + 1, c :: rest =>
    if startsWithL (c :: rest) pat
    then rep ++ replaceAllGo pat rep fuel ((c :: rest).drop pat.length)
    else c :: replaceAllGo pat rep fuel rest

/-- All the literal patterns in the sources are nonempty, so the empty
pattern case is arbitrary (identity). -/
def replaceAllL (pat rep l : List Char) : List Char :=
  match pat with
  | [] => l
  | _ :: _ => replaceAllGo pat rep l.length l

def replaceAllS (s pat rep : String) : String := ⟨replaceAllL pat.data rep.data s.data⟩

/-- `replace(/t{2,}/g, "t")` for a single character `t`: collapse runs.
The boolean records whether the previous character was `t`. -/
def collapseRunGo (t : Char) : Bool → List Char → List Char
  | _, [] => []
  | prev, c :: rest =>
    if c == t then
      (if prev then collapseRunGo t true rest else c :: collapseRunGo t true rest)
    else c :: collapseRunGo t false rest

/-- `replace(/>\s+</g, "><")`: state `some buf` means a `>` was emitted and
`buf` holds the whitespace seen since. -/
def rmWsTagsGo : Option (List Char) → List Char → List Char
  | none, [] => []
  | some buf, [] => buf
  | none, c :: rest =>
    if c == '>' then '>' :: rmWsTagsGo (some []) rest
    else c :: rmWsTagsGo none rest
  | some buf, c :: rest =>
    if isJsWs c then rmWsTagsGo (some (buf ++ [c])) rest
    else if c == '<' && !buf.isEmpty then '<' :: rmWsTagsGo none rest
    else if c == '>' then buf ++ ('>' :: rmWsTagsGo (some []) rest)
    else buf ++ (c :: rmWsTagsGo none rest)

/-- `replace(/>(\S)/g, "> $1")`.  After a match both characters are consumed,
so a `>` captured as the non-whitespace character gets no space of its own. -/
def spaceAfterCloseGo : List Char → List Char
  | [] => []
  | ['>'] => ['>']
  | '>' :: c :: rest =>
    if isJsWs c then '>' :: spaceAfterCloseGo (c :: rest)
    else '>' :: ' ' :: c :: spaceAfterCloseGo rest
  | c :: rest => c :: spaceAfterCloseGo rest

/-- First-occurrence `replace(/\s*·\s*/, "")` (the price separator glyph).
State `some buf` buffers pending whitespace that would belong to the match. -/
def stripSepGo : Option (List Char) → List Char → List Char
  | none, [] => []
  | some buf, [] => buf
  | none, c :: rest =>
    if c == '·' then rest.dropWhile isJsWs
    else if isJsWs c then stripSepGo (some [c]) rest
    else c :: stripSepGo none rest
  | some buf, c :: rest =>
    if c == '·' then rest.dropWhile isJsWs
    else if isJsWs c then stripSepGo (some (buf ++ [c])) rest
    else buf ++ (c :: stripSepGo none rest)

def stripSepS (s : String) : String := ⟨stripSepGo none s.data⟩

/-- `split(/\s*·\s*/)[0]`: the prefix before the first separator match. -/
def formatHeadGo : Option (List Char) → List Char → List Char
  | none, [] => []
  | some buf, [] => buf
  | none, c :: rest =>
    if c == '·' then []
    else if isJsWs c then formatHeadGo (some [c]) rest
    else c :: formatHeadGo none rest
  | some buf, c :: rest =>
    if c == '·' then []
    else if isJsWs c then formatHeadGo (some (buf ++ [c])) rest
    else buf ++ (c :: formatHeadGo none rest)

def formatHeadS (s : String) : String := ⟨formatHeadGo none s.data⟩

/-! ### JS number parsing (`parseInt` / `parseFloat`) -/

def digitsToNat (l : List Char) : Nat :=
  l.foldl (fun a c => a * 10 + (c.toNat - ('0').toNat)) 0

def isHexDigit (c : Char) : Bool :=
  c.isDigit || (('a' ≤ c && c ≤ 'f') || ('A' ≤ c && c ≤ 'F'))

def hexDigitVal (c : Char) : Nat :=
  if c.isDigit then c.toNat - ('0').toNat
  else if 'a' ≤ c && c ≤ 'f' then c.toNat - ('a').toNat + 10
  else c.toNat - ('A').toNat + 10

def hexToNat (l : List Char) : Nat :=
  l.foldl (fun a c => a * 16 + hexDigitVal c) 0

/-- Leading sign: returns (negative?, remainder). -/
def readSign (l : List Char) : Bool × List Char :=
  match l with
  | [] => (false, [])
  | c :: rest =>
    if c == '-' then (true, rest)
    else if c == '+' then (false, rest)
    else (false, c :: rest)

def intOfNeg (neg : Bool) (n : Nat) : Int :=
  if neg then -(n : Int) else (n : Int)

/-- `parseInt(s)` with no radix argument: skips whitespace, reads an optional
sign, auto-detects a `0x`/`0X` hexadecimal prefix, otherwise reads decimal
digits; `none` models `NaN`. -/
def jsParseInt (s : String) : Option Int :=
  let l := s.data.dropWhile isJsWs
  let sr := readSign l
  let l1 := sr.2
  if startsWithL l1 (['0', 'x']) || startsWithL l1 (['0', 'X']) then
    let ds := (l1.drop 2).takeWhile isHexDigit
    if ds.isEmpty then none else some (intOfNeg sr.1 (hexToNat ds))
  else
    let ds := l1.takeWhile Char.isDigit
    if ds.isEmpty then none else some (intOfNeg sr.1 (digitsToNat ds))

/-- `parseInt(s, 10)`: as above but with no hexadecimal auto-detection. -/
def jsParseIntR10 (s : String) : Option Int :=
  let l := s.data.dropWhile isJsWs
  let sr := readSign l
  let ds := sr.2.takeWhile Char.isDigit
  if ds.isEmpty then none else some (intOfNeg sr.1 (digitsToNat ds))

def applySign (neg : Bool) (q : ℚ) : ℚ := if neg then -q else q

/-- Optional exponent part of a JS float literal (`e`/`E` sign digits);
anything else contributes factor 1. -/
def expTail (l : List Char) : ℚ :=
  let sr := readSign l
  let ds := sr.2.takeWhile Char.isDigit
  if ds.isEmpty then 1
  else if sr.1 then ((10 : ℚ) ^ digitsToNat ds)⁻¹
  else (10 : ℚ) ^ digitsToNat ds

def expFactor : List Char → ℚ
  | 'e' :: rest => expTail rest
  | 'E' :: rest => expTail rest
  | _ => 1

def mantissaVal (ip fp : List Char) : ℚ :=
  (digitsToNat ip : ℚ) + (digitsToNat fp : ℚ) / (10 : ℚ) ^ fp.length

/-- `parseFloat(s)`: longest valid numeric prefix after whitespace and an
optional sign; `none` models `NaN`.  (The `Infinity` literal never occurs on
the call sites and is not modelled.) -/
def jsParseFloat (s : String) : Option ℚ :=
  let l := s.data.dropWhile isJsWs
  let sr := readSign l
  let l1 := sr.2
  let ip := l1.takeWhile Char.isDigit
  match l1.drop ip.length with
  | '.' :: l3 =>
    let fp := l3.takeWhile Char.isDigit
    if ip.isEmpty && fp.isEmpty then none
    else some (applySign sr.1 (mantissaVal ip fp * expFactor (l3.drop fp.length)))
  | l2 =>
    if ip.isEmpty then none
    else some (applySign sr.1 ((digitsToNat ip : ℚ) * expFactor l2))

/-! ### Value parsers (src/utils/parsingUtils.ts, dateUtils.ts, getApiUrl.ts) -/

def isDigitOrDot (c : Char) : Bool := c.isDigit || c == '.'

/-- `parseComicPrice` from parsingUtils.ts. -/
def parseComicPrice (s : String) : ℚ :=
  if s = "" ∨ jsTrimS s = "" then 0
  else
    match jsParseFloat ⟨s.data.filter isDigitOrDot⟩ with
    | none => 0
    | some q => q

def isOrdPair (a b : Char) : Bool :=
  (a == 's' && b == 't') || (a == 'n' && b == 'd') ||
  (a == 'r' && b == 'd') || (a == 't' && b == 'h')

/-- First-occurrence `replace(/(\d+)(st|nd|rd|th)/, "$1")`.  A match ends at a
digit followed by one of the two-letter ordinal suffixes; the digits are kept
and the suffix dropped, at the first such place only. -/
def stripOrdGo : Bool → List Char → List Char
  | _, [] => []
  | _, [c] => [c]
  | _, [c, d] => [c, d]
  | done, c :: d :: e :: rest =>
    if !done && c.isDigit && isOrdPair d e then c :: stripOrdGo true rest
    else c :: stripOrdGo done (d :: e :: rest)

def stripOrdS (s : String) : String := ⟨stripOrdGo false s.data⟩

/-- `parseComicDate` from dateUtils.ts.  `parse` models the runtime
`new Date(string)` parser (epoch ms, `none` = Invalid Date) and `now` models
`new Date()` at call time. -/
def parseComicDate (parse : String → Option Int) (now : Int) (s : String) : Int :=
  if s = "" ∨ jsTrimS s = "" then now
  else
    match parse (stripOrdS s) with
    | some t => t
    | none => now

/-- Anchored pattern `/^\/comic\/\d+\/([^\/]+)$/` on a query-less URL. -/
def matchTitlePathL (l : List Char) : Option (List Char) :=
  if startsWithL l (("/comic/").data) then
    let after := l.drop 7
    let ds := after.takeWhile Char.isDigit
    if ds.isEmpty then none
    else
      match after.drop ds.length with
      | '/' :: rest =>
        if !rest.isEmpty && !(rest.contains '/') then some rest else none
      | _ => none
  else none

/-- `extractTitlePath` from getApiUrl.ts. -/
def extractTitlePath (url : String) : String :=
  if url = "" then ("")
  else
    match matchTitlePathL (url.data.takeWhile (fun c => c != '?')) with
    | some slug => ⟨slug⟩
    | none => ""

/-! ### HTML normalizer (`parseHtml`, src/utils/htmlParser.ts) -/

def nlCharS : String := "\n"
def escRN : String := "\\r\\n"
def crlfS : String := "\r\n"
def ampEnt : String := "&amp;"
def ampS : String := "&"
def quotEnt : String := "&quot;"
def quotS : String := "\""
def aposEnt : String := "&#39;"
def aposS : String := "'"

/-- `parseHtml` from htmlParser.ts, translated replace-by-replace. -/
def parseHtml (s : String) : String :=
  if s = "" then ("")
  else
    let cleanHtml :=
      jsTrimS ⟨collapseRunGo ' ' false (collapseRunGo '\n' false
        (replaceAllS (replaceAllS s escRN nlCharS) crlfS nlCharS).data)⟩
    ⟨spaceAfterCloseGo (rmWsTagsGo none
      (replaceAllS (replaceAllS (replaceAllS cleanHtml ampEnt ampS) quotEnt quotS)
        aposEnt aposS).data)⟩

/-! ### DOM model and the cheerio operations used by the extraction engine

cheerio's HTML5 parsing is an external collaborator: the extraction
functions are embedded over an explicit document tree.  A located node
(`LNode`) carries the path from the document root, giving nodes the identity
cheerio sets have. -/

inductive Node where
  | elem (tag : String) (attrs : List (String × String)) (children : List Node)
  | text (data : String)

structure LNode where
  path : List Nat
  node : Node

mutual
def nodeText : Node → String
  | .text s => s
  | .elem _ _ cs => nodeListText cs
def nodeListText : List Node → String
  | [] => ""
  | c :: cs => nodeText c ++ nodeListText cs
end

mutual
def descsFrom (p : List Nat) : Node → List LNode
  | .text _ => []
  | .elem _ _ cs => descsList p 0 cs
def descsList (p : List Nat) (i : Nat) : List Node → List LNode
  | [] => []
  | c :: cs => ⟨p ++ [i], c⟩ :: (descsFrom (p ++ [i]) c ++ descsList p (i + 1) cs)
end

def nodeAt : Node → List Nat → Option Node
  | n, [] => some n
  | .elem _ _ cs, i :: p =>
    match cs.get? i with
    | some c => nodeAt c p
    | none => none
  | .text _, _ :: _ => none

/-- First attribute with the given name (cheerio `attr`). -/
def attrOfN : Node → String → Option String
  | .elem _ attrs _, k => (attrs.find? (fun a => a.1 == k)).map (fun a => a.2)
  | .text _, _ => none

/-- Split on whitespace (for the `class` attribute). -/
def splitWsGo (cur : List Char) : List Char → List (List Char)
  | [] => if cur.isEmpty then [] else [cur.reverse]
  | c :: rest =>
    if isJsWs c then
      (if cur.isEmpty then splitWsGo [] rest else cur.reverse :: splitWsGo [] rest)
    else splitWsGo (c :: cur) rest

def hasClass (n : Node) (c : String) : Bool :=
  match attrOfN n ("class") with
  | some a => (splitWsGo [] a.data).contains c.data
  | none => false

/-- The simple-selector conditions appearing in the sources. -/
inductive SelCond where
  | tagIs (t : String)
  | clsHas (c : String)
  | idIs (i : String)
  | attrEq (k v : String)
  | attrStarts (k v : String)
  | attrHas (k v : String)

def matchesCond (n : Node) : SelCond → Bool
  | .tagIs t => match n with | .elem tg _ _ => tg == t | .text _ => false
  | .clsHas c => hasClass n c
  | .idIs i => attrOfN n ("id") == some i
  | .attrEq k v => attrOfN n k == some v
  | .attrStarts k v =>
    match attrOfN n k with
    | some a => startsWithS a v
    | none => false
  | .attrHas k v =>
    match attrOfN n k with
    | some a => containsS a v
    | none => false

/-- Keep the first occurrence of each path (jQuery sets are duplicate-free
and document-ordered). -/
def dedupPaths (seen : List (List Nat)) : List LNode → List LNode
  | [] => []
  | ln :: rest =>
    if ln.path ∈ seen then dedupPaths seen rest
    else ln :: dedupPaths (ln.path :: seen) rest

/-- One descendant-combinator step of a selector. -/
def selStep (set : List LNode) (sel : List SelCond) : List LNode :=
  dedupPaths []
    ((set.map (fun ln =>
      (descsFrom ln.path ln.node).filter (fun d => sel.all (matchesCond d.node)))).flatten)

/-- cheerio `find` with a descendant-chain selector. -/
def findIn (set : List LNode) (chain : List (List SelCond)) : List LNode :=
  chain.foldl selStep set

/-- `$(selector)` over the whole document. -/
def queryChain (root : Node) (chain : List (List SelCond)) : List LNode :=
  findIn [⟨[], root⟩] chain

/-- jQuery `.text()` of a set: concatenated text of each node in order. -/
def textOfSet (set : List LNode) : String :=
  set.foldl (fun acc ln => acc ++ nodeText ln.node) ""

/-- jQuery `.attr(k)`: attribute of the first node of the set. -/
def attrFirst (set : List LNode) (k : String) : Option String :=
  match set with
  | [] => none
  | ln :: _ => attrOfN ln.node k

def firstSet (set : List LNode) : List LNode := set.take 1

def lastSet (set : List LNode) : List LNode :=
  match set.getLast? with
  | some x => [x]
  | none => []

/-- jQuery `.parent()`. -/
def parentsOf (root : Node) (set : List LNode) : List LNode :=
  dedupPaths [] (set.filterMap (fun ln =>
    if ln.path.isEmpty then none
    else (nodeAt root ln.path.dropLast).map (fun n => LNode.mk ln.path.dropLast n)))

/-- `.clone().children().remove().end().text()` of one element: the direct
text-node children only. -/
def directText : Node → String
  | .text _ => ""
  | .elem _ _ cs =>
    cs.foldl (fun acc c => match c with | .text s => acc ++ s | .elem _ _ _ => acc) ""

def directTextOfSet (set : List LNode) : String :=
  set.foldl (fun acc ln => acc ++ directText ln.node) ""

/-- `.contents().not(tag).text()` of one element: child nodes except
elements with the given tag, text concatenated. -/
def contentsNotTagText (t : String) : Node → String
  | .text _ => ""
  | .elem _ _ cs =>
    cs.foldl (fun acc c =>
      match c with
      | .text s => acc ++ s
      | .elem tg a ch => if tg == t then acc else acc ++ nodeText (.elem tg a ch)) ""

/-! ### Domain entities (src/types) -/

structure Creator where
  name : String
  role : String
  url : String
  type : String
deriving DecidableEq

structure Character where
  name : String
  realName : Option String
  url : String
  type : Option String
deriving DecidableEq

structure Variant where
  id : Option Int
  title : String
  coverImage : String
  url : String
  category : String
deriving DecidableEq

structure Story where
  title : String
  type : String
  pages : Option (Option Int)
  creators : List Creator
  characters : List Character
deriving DecidableEq

/-- A listing entry.  JS numbers parsed by bare `parseInt` can be `NaN`,
modelled as `none`; the variant fields are additionally optional. -/
structure ComicData where
  id : Option Int
  title : String
  publisher : String
  date : Int
  price : ℚ
  coverImage : String
  url : String
  pulls : Option Int
  community : Option Int
  titlePath : String
  parentId : Option (Option Int)
  variantId : Option (Option Int)
  variantName : Option String
deriving DecidableEq

structure ComicDetails where
  id : Option Int
  title : String
  issueNumber : String
  publisher : String
  description : String
  coverDate : String
  releaseDate : Int
  pages : Option Int
  price : Option ℚ
  format : String
  upc : Option String
  isbn : Option String
  distributorSku : String
  finalOrderCutoff : String
  coverImage : String
  url : String
  rating : Option ℚ
  ratingCount : Option Int
  ratingText : String
  pulls : Option Int
  collected : Option Int
  read : Option Int
  wanted : Option Int
  seriesUrl : String
  creators : List Creator
  characters : List Character
  variants : List Variant
  stories : List Story
  previousIssueUrl : Option String
  nextIssueUrl : Option String
deriving DecidableEq

/-! ### JS truthiness helpers (`x || y`, `x || undefined`) -/

def jsOrElse (x : Option String) (d : String) : String :=
  match x with
  | some s => if s = "" then d else s
  | none => d

def jsOrStr (a b : Option String) : Option String :=
  match a with
  | some s => if s = "" then b else a
  | none => b

def jsStrOrUndef (s : String) : Option String :=
  if s = "" then none else some s

/-- `x || undefined` for an optional string (an empty string is falsy). -/
def jsOrUndef (x : Option String) : Option String :=
  match x with
  | some s => if s = "" then none else some s
  | none => none

def jsOrZeroI (x : Option Int) : Option Int := some (x.getD 0)

def jsOrZeroQ (x : Option ℚ) : Option ℚ := some (x.getD 0)

/-- Site origin (config/constants.ts default). -/
def LOCG_URL : String := "https://leagueofcomicgeeks.com"

/-- `makeAbsoluteUrl` from htmlParser.ts. -/
def makeAbsoluteUrl (url : String) : String :=
  if url = "" then ("")
  else if startsWithS url ("http") then url
  else LOCG_URL ++ (if startsWithS url ("/") then ("") else ("/")) ++ url

/-! ### Selector constants (the CSS selectors appearing in htmlParser.ts) -/

def selListItems : List (List SelCond) :=
  [[.idIs ("comic-list-issues")], [.tagIs ("li"), .clsHas ("issue")]]
def selTitleA : List (List SelCond) := [[.clsHas ("title")], [.tagIs ("a")]]
def selVariantName : List (List SelCond) := [[.clsHas ("variant-name")]]
def selPublisher : List (List SelCond) := [[.clsHas ("publisher")]]
def selDate : List (List SelCond) := [[.clsHas ("date")]]
def selPrice : List (List SelCond) := [[.clsHas ("price")]]
def selCoverImg : List (List SelCond) := [[.clsHas ("cover")], [.tagIs ("img")]]
def selH1 : List (List SelCond) := [[.tagIs ("h1")]]
def selSmall : List (List SelCond) := [[.tagIs ("small")]]
def selHeaderIntroA : List (List SelCond) := [[.clsHas ("header-intro")], [.tagIs ("a")]]
def selCanonical : List (List SelCond) := [[.tagIs ("link"), .attrEq ("rel") ("canonical")]]
def selListingDescP : List (List SelCond) := [[.clsHas ("listing-description")], [.tagIs ("p")]]
def selCoverArtImg : List (List SelCond) := [[.clsHas ("cover-art")], [.tagIs ("img")]]
def selMetaOg : List (List SelCond) := [[.tagIs ("meta"), .attrEq ("property") ("og:image")]]
def selRatingAvg : List (List SelCond) := [[.clsHas ("rating-avg")]]
def selTextCapStrong : List (List SelCond) := [[.clsHas ("text-capitalize")], [.tagIs ("strong")]]
def selComicScoreColor1 : List (List SelCond) :=
  [[.clsHas ("comic-score")], [.clsHas ("text")], [.clsHas ("color1")]]
def selSpan : List (List SelCond) := [[.tagIs ("span")]]
def selFormatCol : List (List SelCond) :=
  [[.clsHas ("listing-content")], [.clsHas ("row"), .clsHas ("mt-1")], [.clsHas ("col")]]
def selDetailsBlock : List (List SelCond) := [[.clsHas ("details-addtl-block")]]
def selName : List (List SelCond) := [[.clsHas ("name")]]
def selValue : List (List SelCond) := [[.clsHas ("value")]]
def selNameA : List (List SelCond) := [[.clsHas ("name")], [.tagIs ("a")]]
def selRole : List (List SelCond) := [[.clsHas ("role")]]
def selCreatorsRoot : List (List SelCond) :=
  [[.attrStarts ("id") ("creators-")], [.clsHas ("row")], [.clsHas ("col-auto")]]
def selCoverArtists : List (List SelCond) :=
  [[.idIs ("cover-artists")], [.clsHas ("col-auto")]]
def selCreditsProd : List (List SelCond) :=
  [[.idIs ("credits-production")], [.clsHas ("col-auto")]]
def selCharactersRoot : List (List SelCond) :=
  [[.idIs ("characters-")], [.clsHas ("col-auto")]]
def selRealName : List (List SelCond) := [[.clsHas ("real-name")]]
def selCharType : List (List SelCond) := [[.clsHas ("character-type")]]
def selVariantDetails : List (List SelCond) :=
  [[.clsHas ("variant-cover-list")], [.tagIs ("details")]]
def selSummary : List (List SelCond) := [[.tagIs ("summary")]]
def selColLg4 : List (List SelCond) := [[.clsHas ("col-lg-4")]]
def selA : List (List SelCond) := [[.tagIs ("a")]]
def selImg : List (List SelCond) := [[.tagIs ("img")]]
def selStoryItem : List (List SelCond) := [[.clsHas ("story-item")]]
def selStoryTitle : List (List SelCond) := [[.clsHas ("story-title")]]
def selCopySmall : List (List SelCond) := [[.clsHas ("copy-really-small")]]
def selStoryCreators : List (List SelCond) :=
  [[.attrHas ("id") ("creators-")], [.clsHas ("col-auto")]]
def selStoryCharacters : List (List SelCond) :=
  [[.attrHas ("id") ("characters-")], [.clsHas ("col-auto")]]
def selPrev : List (List SelCond) := [[.clsHas ("series-pagination")], [.clsHas ("prev")]]
def selNext : List (List SelCond) := [[.clsHas ("series-pagination")], [.clsHas ("next")]]
def selSeries : List (List SelCond) := [[.clsHas ("series-pagination")], [.clsHas ("series")]]

/-! ### Listing extraction (`extractComicData`, htmlParser.ts).

The source first runs `parseHtml` and hands the result to `cheerio.load`;
the parser is the external collaborator, so the embedded function starts
from the loaded document tree. -/

def enDashSep : String := " – "

/-- One `li.issue` entry of the listing. -/
def extractComicItem (parse : String → Option Int) (now : Int) (item : LNode) : ComicData :=
  let urlRaw := jsOrElse (attrFirst (findIn [item] selTitleA) ("href")) ""
  let titleLink := findIn [item] selTitleA
  let titleBase := jsTrimS (directTextOfSet titleLink)
  let variantName := jsTrimS (textOfSet (findIn titleLink selVariantName))
  let title := if variantName = "" then titleBase else titleBase ++ enDashSep ++ variantName
  let parentAttr := attrOfN item.node ("data-parent")
  let isVariant : Bool := match parentAttr with
    | some p => p != "" && p != "0"
    | none => false
  { id := jsParseInt (jsOrElse (attrOfN item.node ("data-comic")) ("0"))
    title := title
    publisher := jsTrimS (textOfSet (findIn [item] selPublisher))
    date := parseComicDate parse now (jsTrimS (textOfSet (findIn [item] selDate)))
    price := parseComicPrice (jsTrimS (stripSepS (textOfSet (findIn [item] selPrice))))
    coverImage := jsOrElse (jsOrStr (attrFirst (findIn [item] selCoverImg) ("data-src"))
      (attrFirst (findIn [item] selCoverImg) ("src"))) ""
    url := makeAbsoluteUrl urlRaw
    pulls := jsParseInt (jsOrElse (attrOfN item.node ("data-pulls")) ("0"))
    community := jsParseInt (jsOrElse (attrOfN item.node ("data-community")) ("0"))
    titlePath := extractTitlePath urlRaw
    parentId := if isVariant then some (jsParseIntR10 (parentAttr.getD (""))) else none
    variantId := if isVariant
      then some (jsParseIntR10 (jsOrElse (attrOfN item.node ("data-comic")) ("0")))
      else none
    variantName := if isVariant && variantName != "" then some variantName else none }

def extractComicData (parse : String → Option Int) (now : Int) (root : Node) : List ComicData :=
  (queryChain root selListItems).map (extractComicItem parse now)

/-! ### Detail extraction (`extractComicDetails`, htmlParser.ts) -/

/-- `/#(\d+)/`: first `#` immediately followed by digits. -/
def matchHashDigits : List Char → Option (List Char)
  | [] => none
  | '#' :: rest =>
    let ds := rest.takeWhile Char.isDigit
    if ds.isEmpty then matchHashDigits rest else some ds
  | _ :: rest => matchHashDigits rest

/-- `/comic\/(\d+)\//`: first `comic/` followed by digits and `/`. -/
def matchComicIdL : List Char → Option (List Char)
  | [] => none
  | c :: rest =>
    (if startsWithL (c :: rest) (("comic/").data) then
      (let after := (c :: rest).drop 6
       let ds := after.takeWhile Char.isDigit
       if !ds.isEmpty && startsWithL (after.drop ds.length) (['/']) then some ds
       else matchComicIdL rest)
    else matchComicIdL rest)

/-- `/(\d+)<lit>/`: first digit run immediately followed by the literal. -/
def matchNumBefore (lit : List Char) : List Char → Option (List Char)
  | [] => none
  | c :: rest =>
    (if c.isDigit then
      (let ds := (c :: rest).takeWhile Char.isDigit
       if startsWithL ((c :: rest).drop ds.length) lit then some ds
       else matchNumBefore lit rest)
    else matchNumBefore lit rest)

/-- `/\$(\d+\.?\d*)/`: first dollar-prefixed numeral; the capture keeps an
optional decimal point and following digits. -/
def matchDollarNum : List Char → Option (List Char)
  | [] => none
  | '$' :: rest =>
    (let ds := rest.takeWhile Char.isDigit
     if ds.isEmpty then matchDollarNum rest
     else
       match rest.drop ds.length with
       | '.' :: r2 => some (ds ++ ('.' :: r2.takeWhile Char.isDigit))
       | _ => some ds)
  | _ :: rest => matchDollarNum rest

/-- `/variant=(\d+)/`. -/
def matchVariantIdL : List Char → Option (List Char)
  | [] => none
  | c :: rest =>
    (if startsWithL (c :: rest) (("variant=").data) then
      (let ds := ((c :: rest).drop 8).takeWhile Char.isDigit
       if ds.isEmpty then matchVariantIdL rest else some ds)
    else matchVariantIdL rest)

/-- `/(Story|Front Matter|Back Matter)/`: leftmost occurrence, alternatives
tried in order at each position. -/
def matchStoryKw : List Char → Option String
  | [] => none
  | c :: rest =>
    (if startsWithL (c :: rest) (("Story").data) then some ("Story")
    else if startsWithL (c :: rest) (("Front Matter").data) then some ("Front Matter")
    else if startsWithL (c :: rest) (("Back Matter").data) then some ("Back Matter")
    else matchStoryKw rest)

def isWordChar (c : Char) : Bool := c.isAlphanum || c == '_'

/-- `replace(/^\w+\s+/, "")`: drop one leading icon-label token. -/
def stripLeadWordWs (l : List Char) : List Char :=
  let w := l.takeWhile isWordChar
  if w.isEmpty then l
  else
    let r := l.drop w.length
    let ws := r.takeWhile isJsWs
    if ws.isEmpty then l else r.drop ws.length

/-- `replace(/,/g, "")`. -/
def commaFree (s : String) : String := ⟨s.data.filter (fun c => c != ',')⟩

def h1TitlesOf (root : Node) : List String :=
  (queryChain root selH1).map (fun ln =>
    let mainTitle := jsTrimS (contentsNotTagText ("small") ln.node)
    let smallText := jsTrimS (textOfSet (findIn [ln] selSmall))
    if smallText = "" then mainTitle else mainTitle ++ enDashSep ++ smallText)

def detailTitleOf (root : Node) : String :=
  String.intercalate enDashSep (h1TitlesOf root)

def publisherOf (root : Node) : String :=
  jsTrimS (textOfSet (firstSet (queryChain root selHeaderIntroA)))

def releaseDateTextOf (root : Node) : String :=
  jsTrimS (textOfSet (lastSet (queryChain root selHeaderIntroA)))

def issueNumberOf (root : Node) : String :=
  match matchHashDigits (detailTitleOf root).data with
  | some ds => ⟨ds⟩
  | none => ""

def canonicalUrlOf (root : Node) : String :=
  jsOrElse (attrFirst (queryChain root selCanonical) ("href")) ""

def detailIdOf (root : Node) : Option Int :=
  match matchComicIdL (canonicalUrlOf root).data with
  | some ds => jsParseInt ⟨ds⟩
  | none => some 0

def descriptionOf (root : Node) : String :=
  String.intercalate nlCharS
    (((queryChain root selListingDescP).map (fun ln => jsTrimS (nodeText ln.node))).filter
      (fun t => t != ""))

def detailCoverImageOf (root : Node) : String :=
  jsOrElse (jsOrStr (attrFirst (queryChain root selCoverArtImg) ("src"))
    (attrFirst (queryChain root selMetaOg) ("content"))) ""

def ratingOf (root : Node) : Option ℚ :=
  jsOrZeroQ (jsParseFloat (jsTrimS (textOfSet (queryChain root selRatingAvg))))

def ratingCountOf (root : Node) : Option Int :=
  jsOrZeroI (jsParseInt (commaFree (textOfSet (queryChain root selTextCapStrong))))

def ratingDescriptionOf (root : Node) : String :=
  jsTrimS (textOfSet (firstSet (queryChain root selComicScoreColor1)))

/-- `parseInt($(".cg-icon-X").parent().find("span").text().replace(/,/g,"")) || 0`. -/
def statOf (root : Node) (iconCls : String) : Option Int :=
  jsOrZeroI (jsParseInt (commaFree (textOfSet
    (findIn (parentsOf root (queryChain root [[.clsHas iconCls]])) selSpan))))

def formatAndPagesOf (root : Node) : String :=
  jsTrimS (textOfSet (queryChain root selFormatCol))

def pagesOf (root : Node) : Option Int :=
  jsParseInt ⟨(matchNumBefore ((" pages").data) (formatAndPagesOf root).data).getD (("0").data)⟩

def detailPriceOf (root : Node) : Option ℚ :=
  match matchDollarNum (formatAndPagesOf root).data with
  | some m => jsParseFloat ⟨m⟩
  | none => some 0

def formatOf (root : Node) : String :=
  let h := jsTrimS (formatHeadS (formatAndPagesOf root))
  if h = "" then ("Unknown") else h

/-- Accumulator of the `.details-addtl-block` dispatch loop. -/
structure DetailsAcc where
  coverDate : String
  upc : Option String
  isbn : Option String
  distributorSku : String
  finalOrderCutoff : String

def detailsStep (acc : DetailsAcc) (ln : LNode) : DetailsAcc :=
  let name := jsTrimS (textOfSet (findIn [ln] selName))
  let value := jsTrimS (textOfSet (findIn [ln] selValue))
  if name = ("Cover Date") then { acc with coverDate := value }
  else if name = ("UPC") then { acc with upc := some value }
  else if name = ("ISBN") then { acc with isbn := some value }
  else if name = ("Distributor SKU") then { acc with distributorSku := value }
  else if name = ("Final Order Cutoff") then
    { acc with finalOrderCutoff := jsTrimS ⟨stripLeadWordWs value.data⟩ }
  else acc

def detailsAccOf (root : Node) : DetailsAcc :=
  (queryChain root selDetailsBlock).foldl detailsStep ⟨"", none, none, "", ""⟩

/-- A creator node (`.name a` text, `.role` text, `.name a` href), tagged
with the section it came from; dropped when the name is empty. -/
def creatorFrom (typ : String) (ln : LNode) : Option Creator :=
  let name := jsTrimS (textOfSet (findIn [ln] selNameA))
  let role := jsTrimS (textOfSet (findIn [ln] selRole))
  let url := jsOrElse (attrFirst (findIn [ln] selNameA) ("href")) ""
  if name = "" then none else some ⟨name, role, makeAbsoluteUrl url, typ⟩

def creatorsOf (root : Node) : List Creator :=
  ((queryChain root selCreatorsRoot).filterMap (creatorFrom ("creator")))
    ++ ((queryChain root selCoverArtists).filterMap (creatorFrom ("cover")))
    ++ ((queryChain root selCreditsProd).filterMap (creatorFrom ("production")))

def barS : String := "|"

def creatorKey (c : Creator) : String :=
  c.name ++ barS ++ c.role ++ barS ++ c.url ++ barS ++ c.type

/-- Dedup loop with its `seen` set of keys. -/
def uniqueCreatorsGo (seen : List String) : List Creator → List Creator
  | [] => []
  | c :: cs =>
    if creatorKey c ∈ seen then uniqueCreatorsGo seen cs
    else c :: uniqueCreatorsGo (creatorKey c :: seen) cs

def uniqueCreators (cs : List Creator) : List Creator := uniqueCreatorsGo [] cs

def characterFrom (ln : LNode) : Option Character :=
  let name := jsTrimS (textOfSet (findIn [ln] selNameA))
  let realName := jsTrimS (textOfSet (findIn [ln] selRealName))
  let url := jsOrElse (attrFirst (findIn [ln] selNameA) ("href")) ""
  let typ := jsTrimS (textOfSet (findIn [ln] selCharType))
  if name = "" then none
  else some ⟨name, jsStrOrUndef realName, makeAbsoluteUrl url, jsStrOrUndef typ⟩

def charactersOf (root : Node) : List Character :=
  (queryChain root selCharactersRoot).filterMap characterFrom

def variantFrom (category : String) (ln : LNode) : Option Variant :=
  let title := jsOrElse (attrFirst (findIn [ln] selA) ("title")) ""
  let url := jsOrElse (attrFirst (findIn [ln] selA) ("href")) ""
  let image := jsOrElse (jsOrStr (attrFirst (findIn [ln] selImg) ("data-src"))
    (attrFirst (findIn [ln] selImg) ("src"))) ""
  let vid := jsParseInt ⟨(matchVariantIdL url.data).getD (("0").data)⟩
  if title != "" && url != "" then some ⟨vid, title, image, makeAbsoluteUrl url, category⟩
  else none

def variantsOf (root : Node) : List Variant :=
  ((queryChain root selVariantDetails).map (fun dln =>
    let category := jsTrimS (textOfSet (findIn [dln] selSummary))
    (findIn [dln] selColLg4).filterMap (variantFrom category))).flatten

def storyFrom (ln : LNode) : Option Story :=
  let title := jsTrimS (textOfSet (findIn [ln] selStoryTitle))
  let info := jsTrimS (textOfSet (firstSet (findIn [ln] selCopySmall)))
  let typ := match matchStoryKw info.data with
    | some t => t
    | none => ("Unknown")
  let pages := (matchNumBefore ((" page").data) info.data).map (fun ds => jsParseInt ⟨ds⟩)
  let creators := (findIn [ln] selStoryCreators).filterMap (creatorFrom ("creator"))
  let characters := (findIn [ln] selStoryCharacters).filterMap characterFrom
  if title = "" then none else some ⟨title, typ, pages, creators, characters⟩

def storiesOf (root : Node) : List Story :=
  (queryChain root selStoryItem).filterMap storyFrom

def prevRawOf (root : Node) : Option String :=
  jsOrUndef (attrFirst (queryChain root selPrev) ("href"))

def nextRawOf (root : Node) : Option String :=
  jsOrUndef (attrFirst (queryChain root selNext) ("href"))

def seriesUrlOf (root : Node) : String :=
  makeAbsoluteUrl (jsOrElse (attrFirst (queryChain root selSeries) ("href")) "")

/-- `extractComicDetails` from htmlParser.ts over the loaded document. -/
def extractComicDetails (parse : String → Option Int) (now : Int) (root : Node) : ComicDetails :=
  let acc := detailsAccOf root
  { id := detailIdOf root
    title := detailTitleOf root
    issueNumber := issueNumberOf root
    publisher := publisherOf root
    description := descriptionOf root
    coverDate := acc.coverDate
    releaseDate := parseComicDate parse now (releaseDateTextOf root)
    pages := pagesOf root
    price := detailPriceOf root
    format := formatOf root
    upc := acc.upc
    isbn := acc.isbn
    distributorSku := acc.distributorSku
    finalOrderCutoff := acc.finalOrderCutoff
    coverImage := detailCoverImageOf root
    url := canonicalUrlOf root
    rating := ratingOf root
    ratingCount := ratingCountOf root
    ratingText := ratingDescriptionOf root
    pulls := statOf root ("cg-icon-pull")
    collected := statOf root ("cg-icon-collect")
    read := statOf root ("cg-icon-readlist")
    wanted := statOf root ("cg-icon-wishlist")
    seriesUrl := seriesUrlOf root
    creators := uniqueCreators (creatorsOf root)
    characters := charactersOf root
    variants := variantsOf root
    stories := storiesOf root
    previousIssueUrl := (prevRawOf root).map makeAbsoluteUrl
    nextIssueUrl := (nextRawOf root).map makeAbsoluteUrl }

/-! ### Spec-worded normalizer pipeline (for the refinement claim about
`parseHtml`): the eight steps of §4.2, stated individually. -/

/-- Spec step 1: convert literal backslash-escaped line-break sequences to
real line breaks. -/
def specEscapedBreaks (s : String) : String := replaceAllS s escRN nlCharS

/-- Spec step 2: normalize real line-break sequences to a single newline. -/
def specNormalizeBreaks (s : String) : String := replaceAllS s crlfS nlCharS

/-- Spec step 3: collapse runs of two or more newlines to one. -/
def specCollapseNewlines (s : String) : String := ⟨collapseRunGo '\n' false s.data⟩

/-- Spec step 4: collapse runs of two or more spaces to one. -/
def specCollapseSpaces (s : String) : String := ⟨collapseRunGo ' ' false s.data⟩

/-- Spec step 5: trim leading/trailing whitespace. -/
def specTrim (s : String) : String := jsTrimS s

/-- Spec step 6: unescape the ampersand and quote entities. -/
def specUnescapeEntities (s : String) : String :=
  replaceAllS (replaceAllS (replaceAllS s ampEnt ampS) quotEnt quotS) aposEnt aposS

/-- Spec step 7: remove whitespace directly between adjacent tag boundaries. -/
def specRemoveWsBetweenTags (s : String) : String := ⟨rmWsTagsGo none s.data⟩

/-- Spec step 8: ensure a single space follows a closing tag immediately
followed by non-whitespace content. -/
def specSpaceAfterClose (s : String) : String := ⟨spaceAfterCloseGo s.data⟩

/-- The §4.2 pipeline in the order the spec states it. -/
def parseHtmlSpecPipeline (s : String) : String :=
  specSpaceAfterClose (specRemoveWsBetweenTags (specUnescapeEntities (specTrim
    (specCollapseSpaces (specCollapseNewlines (specNormalizeBreaks
      (specEscapedBreaks s)))))))

/-! ### Retrieval client (src/services/locgService.ts) -/

/-- A thrown JS error as the retry logic observes it: its `message`, whether
it is an `Error` instance, and the `status` an `ApiError` carries. -/
structure Err where
  message : String
  isErrorInstance : Bool
  status : Option Nat
deriving DecidableEq

/-- `isRetryableError` from locgService.ts. -/
def isRetryableError (e : Err) : Bool :=
  if !e.isErrorInstance then false
  else
    let isDnsError := containsS e.message ("EAI_AGAIN")
      || containsS e.message ("ENOTFOUND")
      || containsS e.message ("getaddrinfo")
    let isTimeout := containsS e.message ("timeout")
      || containsS e.message ("ETIMEDOUT")
      || containsS e.message ("UND_ERR_CONNECT_TIMEOUT")
      || containsS e.message ("aborted")
    let isConnectionError := containsS e.message ("ECONNREFUSED")
      || containsS e.message ("ECONNRESET")
      || containsS e.message ("EPIPE")
      || containsS e.message ("fetch failed")
    isDnsError || isTimeout || isConnectionError

/-- The `ApiError` thrown by `getComic` on a non-ok response:
`HTTP error! status: ${status} ${statusText}`. -/
def httpStatusError (status : Nat) (statusText : String) : Err :=
  ⟨("HTTP error! status: ") ++ toString status ++ (" ") ++ statusText, true, some status⟩

/-- Observable outcome of a `withRetry` run: the returned value or thrown
error, the number of calls made to `fn`, and the backoff sleeps in order. -/
structure RunResult (α : Type) where
  result : Except Err α
  attemptsMade : Nat
  sleeps : List Nat

/-- The `withRetry` loop body.  `attempt` is the loop counter; the fuel is
`retries - attempt`, so fuel 0 is the last attempt (`attempt === retries`),
whose error is rethrown regardless of classification. -/
def withRetryGo {α : Type} (fn : Nat → Except Err α) (attempt : Nat) :
    Nat → RunResult α
  | 0 =>
    match fn attempt with
    | .ok v => ⟨.ok v, 1, []⟩
    | .error e => ⟨.error e, 1, []⟩
  | fuel + 1 =>
    match fn attempt with
    | .ok v => ⟨.ok v, 1, []⟩
    | .error e =>
      if isRetryableError e then
        let r := withRetryGo fn (attempt + 1) fuel
        ⟨r.result, r.attemptsMade + 1, (2 ^ attempt * 1000) :: r.sleeps⟩
      else ⟨.error e, 1, []⟩

/-- `withRetry(fn, retries)` from locgService.ts, with `fn`'s outcome on
each successive call supplied by the environment.  (The `throw` after the
loop is unreachable: the last attempt always returns or throws.) -/
def withRetry {α : Type} (fn : Nat → Except Err α) (retries : Nat) : RunResult α :=
  withRetryGo fn 0 retries

/-! #### Detail-page cache -/

/-- `CACHE_TTL`: 4 days in milliseconds. -/
def CACHE_TTL : Nat := 4 * 24 * 60 * 60 * 1000

structure CacheEntry where
  data : String × String
  timestamp : Nat
deriving DecidableEq

/-- The `comicCache` map. -/
def Cache : Type := String → Option CacheEntry

/-- `getCacheKey`: `id:title[:variantId]` (an empty variant id is falsy). -/
def getCacheKey (comicId : Int) (title : String) (variantId : Option String) : String :=
  match variantId with
  | some v =>
    if v = "" then toString comicId ++ (":") ++ title
    else toString comicId ++ (":") ++ title ++ (":") ++ v
  | none => toString comicId ++ (":") ++ title

/-- `getCachedComic`: a hit within TTL returns the data; an expired entry is
deleted (lazy eviction) and reported as a miss.  Returns the possibly
updated cache. -/
def getCachedComic (cache : Cache) (now : Nat) (key : String) :
    Option (String × String) × Cache :=
  match cache key with
  | none => (none, cache)
  | some entry =>
    if now - entry.timestamp > CACHE_TTL then
      (none, fun k => if k = key then none else cache k)
    else (some entry.data, cache)

/-- `setCachedComic`. -/
def setCachedComic (cache : Cache) (now : Nat) (key : String)
    (data : String × String) : Cache :=
  fun k => if k = key then some ⟨data, now⟩ else cache k

/-- URL built by `getComic` (an empty variant id is falsy). -/
def comicFinalUrl (comicId : Int) (title : String) (variantId : Option String) : String :=
  let baseUrl := LOCG_URL ++ ("/comic/") ++ toString comicId ++ ("/") ++ title
  match variantId with
  | some v => if v = "" then baseUrl else baseUrl ++ ("?variant=") ++ v
  | none => baseUrl

/-- Observable outcome of a `getComic` call: result, cache afterwards,
number of network attempts, and backoff sleeps. -/
structure GetComicOut where
  result : Except Err (String × String)
  cache : Cache
  networkAttempts : Nat
  sleeps : List Nat

/-- `getComic(comicId, title, variantId?, retries)` from locgService.ts.
`net a` is the outcome of the `a`-th fetch of the detail page (the body on
success, the thrown error otherwise); a successful fetch resolves to
`{html, url: finalUrl}`.  `now` models `Date.now()` during the call. -/
def getComic (net : Nat → Except Err String) (cache : Cache) (now : Nat)
    (comicId : Int) (title : String) (variantId : Option String)
    (retries : Nat) : GetComicOut :=
  let cacheKey := getCacheKey comicId title variantId
  match getCachedComic cache now cacheKey with
  | (some data, cache') => ⟨.ok data, cache', 0, []⟩
  | (none, cache') =>
    let finalUrl := comicFinalUrl comicId title variantId
    let run := withRetry (fun a => (net a).map (fun html => (html, finalUrl))) retries
    match run.result with
    | .ok v => ⟨.ok v, setCachedComic cache' now cacheKey v, run.attemptsMade, run.sleeps⟩
    | .error e => ⟨.error e, cache', run.attemptsMade, run.sleeps⟩

/-! ### Helper lemmas about the text primitives -/

lemma isDigitOrDot_not_ws (c : Char) (h : isDigitOrDot c = true) : isJsWs c = false := by
  cases hw : isJsWs c with
  | false => rfl
  | true =>
    exfalso
    have hc : c = ' ' ∨ c = '\t' ∨ c = '\n' ∨ c = '\r' ∨ c = '\x0b' ∨ c = '\x0c' := by
      simpa [isJsWs, or_assoc] using hw
    rcases hc with h1 | h1 | h1 | h1 | h1 | h1 <;> subst h1 <;> exact absurd h (by decide)

lemma dropWhile_ws_eq_self (m : List Char) (h : ∀ c ∈ m, isJsWs c = false) :
    m.dropWhile isJsWs = m := by
  cases m with
  | nil => rfl
  | cons c rest =>
    exact List.dropWhile_cons_of_neg (by simp [h c (List.mem_cons_self c rest)])

lemma jsTrimL_eq_self (m : List Char) (h : ∀ c ∈ m, isJsWs c = false) : jsTrimL m = m := by
  unfold jsTrimL
  rw [dropWhile_ws_eq_self m h,
    dropWhile_ws_eq_self m.reverse (by intro c hc; exact h c (List.mem_reverse.mp hc)),
    List.reverse_reverse]

lemma jsTrimL_nil_all_ws (l : List Char) (h : jsTrimL l = []) :
    ∀ c ∈ l, isJsWs c = true := by
  unfold jsTrimL at h
  rw [List.reverse_eq_nil_iff] at h
  have h2 : ∀ c ∈ (l.dropWhile isJsWs).reverse, isJsWs c = true :=
    List.dropWhile_eq_nil_iff.mp h
  have h3 : ∀ c ∈ l.dropWhile isJsWs, isJsWs c = true := by
    intro c hc; exact h2 c (List.mem_reverse.mpr hc)
  intro c hc
  rw [← List.takeWhile_append_dropWhile (p := isJsWs) (l := l)] at hc
  rcases List.mem_append.mp hc with h4 | h4
  · exact List.mem_takeWhile_imp h4
  · exact h3 c h4

lemma jsTrimS_filter (s : String) :
    jsTrimS ⟨s.data.filter isDigitOrDot⟩ = ⟨s.data.filter isDigitOrDot⟩ := by
  show (⟨jsTrimL (s.data.filter isDigitOrDot)⟩ : String) = _
  rw [jsTrimL_eq_self]
  intro c hc
  exact isDigitOrDot_not_ws c (List.of_mem_filter hc)

lemma string_eq_empty_iff (l : List Char) : (⟨l⟩ : String) = "" ↔ l = [] := by
  constructor
  · intro h; exact congrArg String.data h
  · intro h; rw [h]

/-! ### C7: the normalizer applies exactly the eight spec steps in order -/

/-- C7: for every input string, `parseHtml` performs exactly the spec's
eight transformations in the spec's order (the empty-input guard is
invisible: the pipeline maps the empty string to itself). -/
theorem C7_parseHtml_is_spec_pipeline (s : String) : parseHtml s = parseHtmlSpecPipeline s := by
  by_cases h : s = ""
  · subst h; rfl
  · simp only [parseHtml, parseHtmlSpecPipeline, specEscapedBreaks, specNormalizeBreaks,
      specCollapseNewlines, specCollapseSpaces, specTrim, specUnescapeEntities,
      specRemoveWsBetweenTags, specSpaceAfterClose, if_neg h]

/-! ### C6: ordinal suffixes in dates -/

/-- C6: `parseComicDate` ignores a (single) ordinal suffix — parsing a string
whose ordinal-stripped form is stable gives the same date as parsing the
suffix-free string — and any input that is empty, all-whitespace, or rejected
by the runtime date parser yields the current date. -/
theorem C6_parseComicDate_ordinal (parse : String → Option Int) (now : Int) (s : String) :
    (jsTrimS s ≠ "" → jsTrimS (stripOrdS s) ≠ "" →
      stripOrdS (stripOrdS s) = stripOrdS s →
      parseComicDate parse now s = parseComicDate parse now (stripOrdS s))
    ∧ ((s = "" ∨ jsTrimS s = "" ∨ parse (stripOrdS s) = none) →
      parseComicDate parse now s = now) := by
  constructor
  · intro h1 h2 h3
    have hs : ¬(s = "" ∨ jsTrimS s = "") := by
      rintro (h | h)
      · exact h1 (by rw [h]; rfl)
      · exact h1 h
    have hs2 : ¬(stripOrdS s = "" ∨ jsTrimS (stripOrdS s) = "") := by
      rintro (h | h)
      · exact h2 (by rw [h]; rfl)
      · exact h2 h
    rw [parseComicDate, parseComicDate, if_neg hs, if_neg hs2, h3]
  · intro h
    rcases h with h | h | h
    · rw [parseComicDate, if_pos (Or.inl h)]
    · rw [parseComicDate, if_pos (Or.inr h)]
    · rw [parseComicDate]
      by_cases hc : s = "" ∨ jsTrimS s = ""
      · rw [if_pos hc]
      · rw [if_neg hc, h]

def c6parse : String → Option Int :=
  fun s => if s = ("Aug 6, 2025") then some 1754438400000 else none

/-- Witness for C6 at a concrete date string and date-parser behaviour. -/
theorem C6_witness :
    parseComicDate c6parse 0 ("Aug 6th, 2025")
      = parseComicDate c6parse 0 (stripOrdS ("Aug 6th, 2025"))
    ∧ parseComicDate c6parse 0 ("nonsense") = 0 := by
  constructor
  · exact (C6_parseComicDate_ordinal c6parse 0 ("Aug 6th, 2025")).1
      (by decide) (by decide) (by decide)
  · exact (C6_parseComicDate_ordinal c6parse 0 ("nonsense")).2
      (Or.inr (Or.inr (by decide)))

/-! ### C5: price parsing strips junk characters -/

lemma expTail_nonneg (l : List Char) : 0 ≤ expTail l := by
  simp only [expTail]
  split_ifs
  · exact zero_le_one
  · positivity
  · positivity

lemma expFactor_nonneg (l : List Char) : 0 ≤ expFactor l := by
  unfold expFactor
  split
  · exact expTail_nonneg _
  · exact expTail_nonneg _
  · exact zero_le_one

lemma mantissaVal_nonneg (ip fp : List Char) : 0 ≤ mantissaVal ip fp := by
  unfold mantissaVal
  positivity

/-- `parseFloat` of a string of digits and dots is never negative. -/
lemma jsParseFloat_nonneg (s : String) (h : ∀ c ∈ s.data, isDigitOrDot c = true) :
    ∀ q, jsParseFloat s = some q → 0 ≤ q := by
  intro q hq
  have hdw : s.data.dropWhile isJsWs = s.data :=
    dropWhile_ws_eq_self s.data (fun c hc => isDigitOrDot_not_ws c (h c hc))
  have hrs : readSign s.data = (false, s.data) := by
    cases hd : s.data with
    | nil => rfl
    | cons c rest =>
      have hcd : isDigitOrDot c = true := h c (by rw [hd]; exact List.mem_cons_self c rest)
      have hne : c ≠ '-' := fun hcc => by subst hcc; exact absurd hcd (by decide)
      have hne2 : c ≠ '+' := fun hcc => by subst hcc; exact absurd hcd (by decide)
      simp [readSign, hne, hne2]
  rw [jsParseFloat] at hq
  simp only [hdw, hrs, applySign, Bool.false_eq_true, if_false] at hq
  split at hq
  · split at hq
    · exact absurd hq (by simp)
    · rw [← Option.some.inj hq]
      exact mul_nonneg (mantissaVal_nonneg _ _) (expFactor_nonneg _)
  · split at hq
    · exact absurd hq (by simp)
    · rw [← Option.some.inj hq]
      exact mul_nonneg (Nat.cast_nonneg _) (expFactor_nonneg _)

/-- C5: `parseComicPrice` equals the price of the digits-and-dots-only
subsequence; all-junk input gives 0; the result is never negative. -/
theorem C5_parseComicPrice_strip (s : String) :
    parseComicPrice s = parseComicPrice ⟨s.data.filter isDigitOrDot⟩
    ∧ (s.data.filter isDigitOrDot = [] → parseComicPrice s = 0)
    ∧ 0 ≤ parseComicPrice s := by
  refine ⟨?_, ?_, ?_⟩
  · by_cases h0 : s = "" ∨ jsTrimS s = ""
    · have hF : s.data.filter isDigitOrDot = [] := by
        rcases h0 with h | h
        · rw [h]; rfl
        · have hws := jsTrimL_nil_all_ws s.data (congrArg String.data h)
          rw [List.filter_eq_nil_iff]
          intro c hc hdd
          exact absurd (hws c hc) (by simp [isDigitOrDot_not_ws c hdd])
      rw [parseComicPrice, if_pos h0, parseComicPrice,
        if_pos (Or.inl ((string_eq_empty_iff _).mpr hF))]
    · rw [parseComicPrice, if_neg h0]
      by_cases hF : s.data.filter isDigitOrDot = []
      · have hS : (⟨s.data.filter isDigitOrDot⟩ : String) = "" :=
          (string_eq_empty_iff _).mpr hF
        rw [hS, parseComicPrice, if_pos (Or.inl rfl)]
        rfl
      · rw [parseComicPrice, if_neg]
        · have hFF : (⟨s.data.filter isDigitOrDot⟩ : String).data.filter isDigitOrDot
              = s.data.filter isDigitOrDot := by
            show (s.data.filter isDigitOrDot).filter isDigitOrDot = _
            rw [List.filter_filter]
            simp
          rw [hFF]
        · rintro (h | h)
          · exact hF ((string_eq_empty_iff _).mp h)
          · rw [jsTrimS_filter] at h
            exact hF ((string_eq_empty_iff _).mp h)
  · intro hF
    by_cases h0 : s = "" ∨ jsTrimS s = ""
    · rw [parseComicPrice, if_pos h0]
    · rw [parseComicPrice, if_neg h0, hF]
      rfl
  · by_cases h0 : s = "" ∨ jsTrimS s = ""
    · rw [parseComicPrice, if_pos h0]
    · rw [parseComicPrice, if_neg h0]
      cases hpf : jsParseFloat ⟨s.data.filter isDigitOrDot⟩ with
      | none => exact le_refl 0
      | some q =>
        exact jsParseFloat_nonneg _ (fun c hc => List.of_mem_filter hc) q hpf

/-- Witness for C5 at concrete junk-laden price strings. -/
theorem C5_witness :
    parseComicPrice ("$ 4a.9!") = parseComicPrice ("4.9")
    ∧ parseComicPrice ("!!!") = 0 := by
  constructor
  · have he : (⟨("$ 4a.9!").data.filter isDigitOrDot⟩ : String) = ("4.9") := by decide
    exact he ▸ (C5_parseComicPrice_strip ("$ 4a.9!")).1
  · exact (C5_parseComicPrice_strip ("!!!")).2.1 (by decide)

/-! ### Retry-loop lemmas -/

lemma withRetryGo_ok {α : Type} (fn : Nat → Except Err α) (a fuel : Nat) (v : α)
    (h : fn a = .ok v) : withRetryGo fn a fuel = ⟨.ok v, 1, []⟩ := by
  cases fuel <;> simp [withRetryGo, h]

lemma withRetryGo_nonretry {α : Type} (fn : Nat → Except Err α) (a fuel : Nat) (e : Err)
    (h : fn a = .error e) (hr : isRetryableError e = false) :
    withRetryGo fn a fuel = ⟨.error e, 1, []⟩ := by
  cases fuel with
  | zero => simp [withRetryGo, h]
  | succ n => simp [withRetryGo, h, hr]

lemma withRetryGo_attempts_le {α : Type} (fn : Nat → Except Err α) (fuel : Nat) :
    ∀ a, (withRetryGo fn a fuel).attemptsMade ≤ fuel + 1 := by
  induction fuel with
  | zero =>
    intro a
    cases h : fn a <;> simp [withRetryGo, h]
  | succ n ih =>
    intro a
    cases h : fn a with
    | ok v => simp [withRetryGo, h]
    | error e =>
      by_cases hr : isRetryableError e
      · simp only [withRetryGo, h, hr, if_true]
        have := ih (a + 1)
        omega
      · simp [withRetryGo, h, hr]

lemma withRetryGo_success {α : Type} (fn : Nat → Except Err α) :
    ∀ fuel a N v, 1 ≤ N → N ≤ fuel + 1 →
    (∀ k, k + 1 < N → ∃ e, fn (a + k) = .error e ∧ isRetryableError e = true) →
    fn (a + (N - 1)) = .ok v →
    withRetryGo fn a fuel =
      ⟨.ok v, N, (List.range (N - 1)).map (fun k => 2 ^ (a + k) * 1000)⟩ := by
  intro fuel
  induction fuel with
  | zero =>
    intro a N v h1 h2 hf hv
    have hN : N = 1 := by omega
    subst hN
    rw [withRetryGo_ok fn a 0 v (by simpa using hv)]
    simp
  | succ n ih =>
    intro a N v h1 h2 hf hv
    by_cases hN : N = 1
    · subst hN
      rw [withRetryGo_ok fn a (n + 1) v (by simpa using hv)]
      simp
    · obtain ⟨M, rfl⟩ : ∃ M, N = M + 2 := ⟨N - 2, by omega⟩
      obtain ⟨e, he, hre⟩ := hf 0 (by omega)
      have he' : fn a = .error e := by simpa using he
      simp only [withRetryGo, he', hre, if_true]
      have ihh := ih (a + 1) (M + 1) v (by omega) (by omega)
        (fun k hk => by
          have := hf (k + 1) (by omega)
          rwa [show a + (k + 1) = a + 1 + k from by omega] at this)
        (by rw [show a + 1 + (M + 1 - 1) = a + (M + 2 - 1) from by omega]; exact hv)
      rw [ihh]
      show RunResult.mk (Except.ok v) (M + 2)
          (2 ^ a * 1000 :: (List.range M).map (fun k => 2 ^ (a + 1 + k) * 1000))
        = RunResult.mk (Except.ok v) (M + 2)
          ((List.range (M + 1)).map (fun k => 2 ^ (a + k) * 1000))
      rw [List.range_succ_eq_map, List.map_cons, List.map_map]
      congr 1
      have hhead : 2 ^ a * 1000 = 2 ^ (a + 0) * 1000 := by simp
      have htail : List.map (fun k => 2 ^ (a + 1 + k) * 1000) (List.range M)
          = List.map ((fun k => 2 ^ (a + k) * 1000) ∘ Nat.succ) (List.range M) := by
        apply List.map_congr_left
        intro k hk
        have hx : a + 1 + k = a + (k + 1) := by omega
        simp [Function.comp, hx]
      rw [hhead, htail]

lemma withRetryGo_exhaust {α : Type} (fn : Nat → Except Err α) (es : Nat → Err) :
    ∀ fuel a,
    (∀ k, k ≤ fuel → fn (a + k) = .error (es (a + k)) ∧ isRetryableError (es (a + k)) = true) →
    withRetryGo fn a fuel =
      ⟨.error (es (a + fuel)), fuel + 1, (List.range fuel).map (fun k => 2 ^ (a + k) * 1000)⟩ := by
  intro fuel
  induction fuel with
  | zero =>
    intro a h
    obtain ⟨he, _⟩ := h 0 (le_refl 0)
    have he' : fn a = .error (es a) := by simpa using he
    simp [withRetryGo, he']
  | succ n ih =>
    intro a h
    obtain ⟨he, hre⟩ := h 0 (by omega)
    have he' : fn a = .error (es a) := by simpa using he
    have hre' : isRetryableError (es a) = true := by simpa using hre
    simp only [withRetryGo, he', hre', if_true]
    rw [ih (a + 1) (fun k hk => by
      have := h (k + 1) (by omega)
      rwa [show a + (k + 1) = a + 1 + k from by omega] at this)]
    have harg : a + 1 + n = a + (n + 1) := by omega
    rw [harg]
    have hlist : 2 ^ a * 1000 :: (List.range n).map (fun k => 2 ^ (a + 1 + k) * 1000)
        = (List.range (n + 1)).map (fun k => 2 ^ (a + k) * 1000) := by
      rw [List.range_succ_eq_map, List.map_cons, List.map_map]
      congr 1
      have hhead : 2 ^ a * 1000 = 2 ^ (a + 0) * 1000 := by simp
      have htail : List.map (fun k => 2 ^ (a + 1 + k) * 1000) (List.range n)
          = List.map ((fun k => 2 ^ (a + k) * 1000) ∘ Nat.succ) (List.range n) := by
        apply List.map_congr_left
        intro k hk
        have hx : a + 1 + k = a + (k + 1) := by omega
        simp [Function.comp, hx]
      simp only [hhead, htail]
    rw [hlist]

/-! ### C1: the retry policy of the detail fetch -/

def fnC1 : Nat → Except Err Nat :=
  fun a => if a < 3 then .error ⟨("ETIMEDOUT"), true, none⟩ else .ok 7

/-- C1 counterexample: with the default `retries = 3`, a run whose first
three attempts fail retryably succeeds on a *fourth* attempt (sleeping
1s, 2s and 4s), so "at most 3 attempts in total" is false of the code. -/
theorem C1_counterexample :
    (withRetry fnC1 3).result = .ok 7
    ∧ (withRetry fnC1 3).attemptsMade = 4
    ∧ (withRetry fnC1 3).sleeps = [1000, 2000, 4000]
    ∧ ¬(4 ≤ 3) :=
  ⟨rfl, by decide, by decide, by decide⟩

/-- C1 amended: `withRetry fn retries` (default `retries = 3`) makes at most
`retries + 1` attempts in total — the configured count excludes the initial
attempt.  Between consecutive attempts `k+1` and `k+2` it sleeps
`2^k * 1000` ms; if attempts `1..N-1` fail retryably and attempt `N`
succeeds (`N ≤ retries + 1`), the call returns that success after exactly
`N` attempts with sleeps `2^0*1000, …, 2^(N-2)*1000`; a non-retryable
failure on attempt 1 causes no further attempts and propagates; when every
attempt fails retryably, the last error propagates after `retries + 1`
attempts. -/
theorem C1_withRetry_amended {α : Type} (fn : Nat → Except Err α) (retries : Nat) :
    (withRetry fn retries).attemptsMade ≤ retries + 1
    ∧ (∀ N v, 1 ≤ N → N ≤ retries + 1 →
        (∀ k, k + 1 < N → ∃ e, fn k = .error e ∧ isRetryableError e = true) →
        fn (N - 1) = .ok v →
        withRetry fn retries =
          ⟨.ok v, N, (List.range (N - 1)).map (fun k => 2 ^ k * 1000)⟩)
    ∧ (∀ e, fn 0 = .error e → isRetryableError e = false →
        withRetry fn retries = ⟨.error e, 1, []⟩)
    ∧ (∀ es : Nat → Err,
        (∀ k, k ≤ retries → fn k = .error (es k) ∧ isRetryableError (es k) = true) →
        withRetry fn retries =
          ⟨.error (es retries), retries + 1, (List.range retries).map (fun k => 2 ^ k * 1000)⟩) := by
  refine ⟨withRetryGo_attempts_le fn retries 0, ?_, ?_, ?_⟩
  · intro N v h1 h2 hf hv
    have h := withRetryGo_success fn retries 0 N v h1 h2
      (fun k hk => by simpa using hf k hk) (by simpa using hv)
    rw [withRetry, h]
    have : List.map (fun k => 2 ^ (0 + k) * 1000) (List.range (N - 1))
        = List.map (fun k => 2 ^ k * 1000) (List.range (N - 1)) := by
      apply List.map_congr_left
      intro k hk
      simp
    rw [this]
  · intro e he hre
    exact withRetryGo_nonretry fn 0 retries e he hre
  · intro es hs
    have h := withRetryGo_exhaust fn es retries 0 (fun k hk => by simpa using hs k hk)
    rw [withRetry, h]
    have : List.map (fun k => 2 ^ (0 + k) * 1000) (List.range retries)
        = List.map (fun k => 2 ^ k * 1000) (List.range retries) := by
      apply List.map_congr_left
      intro k hk
      simp
    simp only [Nat.zero_add, this]

def fnC1w : Nat → Except Err Nat :=
  fun a => if a = 0 then .error ⟨("fetch failed"), true, none⟩ else .ok 5

/-- Witness for C1: one retryable failure then success gives 2 attempts and
one 1s sleep; a non-retryable error on the first attempt propagates at once. -/
theorem C1_witness :
    withRetry fnC1w 3 = ⟨.ok 5, 2, [1000]⟩
    ∧ withRetry (fun _ => (.error ⟨("boom"), true, none⟩ : Except Err Nat)) 3
        = ⟨.error ⟨("boom"), true, none⟩, 1, []⟩ := by
  constructor
  · have h := (C1_withRetry_amended fnC1w 3).2.1 2 5 (by decide) (by decide)
      (fun k hk => by
        have hk0 : k = 0 := by omega
        subst hk0
        exact ⟨⟨("fetch failed"), true, none⟩, rfl, by decide⟩)
      rfl
    have h2 : (List.range (2 - 1)).map (fun k => 2 ^ k * 1000) = [1000] := by decide
    rw [h2] at h
    exact h
  · exact (C1_withRetry_amended (fun _ => (.error ⟨("boom"), true, none⟩ : Except Err Nat)) 3).2.2.1
      ⟨("boom"), true, none⟩ rfl (by decide)

/-! ### C4: classification of failures as retryable -/

/-- C4 counterexample: an HTTP status error whose server-provided status
text contains a retry keyword ("aborted") is classified retryable, and the
retry wrapper then retries it to exhaustion instead of propagating it with
no further attempt. -/
theorem C4_counterexample :
    isRetryableError (httpStatusError 502 ("connection aborted")) = true
    ∧ (withRetry
        (fun _ => (.error (httpStatusError 502 ("connection aborted")) : Except Err Nat))
        3).attemptsMade = 4 :=
  ⟨by decide, by decide⟩

/-- C4 amended: a failure is retryable exactly when it is an `Error` whose
message contains one of the DNS keywords (`EAI_AGAIN`, `ENOTFOUND`,
`getaddrinfo`), timeout keywords (`timeout`, `ETIMEDOUT`,
`UND_ERR_CONNECT_TIMEOUT`, `aborted` — the latter covering the aborted 30s
request timeout), or connection keywords (`ECONNREFUSED`, `ECONNRESET`,
`EPIPE`, `fetch failed`).  Non-`Error` throws are never retried, and an
HTTP status error is non-retryable provided its message (which embeds the
status text) avoids those keywords — e.g. the standard `Not Found`, which
the wrapper then propagates after a single attempt. -/
theorem C4_isRetryable_amended :
    (∀ e : Err, isRetryableError e = true ↔
      (e.isErrorInstance = true ∧
        (containsS e.message ("EAI_AGAIN") = true ∨ containsS e.message ("ENOTFOUND") = true
          ∨ containsS e.message ("getaddrinfo") = true
          ∨ containsS e.message ("timeout") = true
          ∨ containsS e.message ("ETIMEDOUT") = true
          ∨ containsS e.message ("UND_ERR_CONNECT_TIMEOUT") = true
          ∨ containsS e.message ("aborted") = true
          ∨ containsS e.message ("ECONNREFUSED") = true
          ∨ containsS e.message ("ECONNRESET") = true
          ∨ containsS e.message ("EPIPE") = true
          ∨ containsS e.message ("fetch failed") = true)))
    ∧ (∀ e : Err, e.isErrorInstance = false → isRetryableError e = false)
    ∧ isRetryableError (httpStatusError 404 ("Not Found")) = false
    ∧ isRetryableError (httpStatusError 500 ("Internal Server Error")) = false
    ∧ withRetry (fun _ => (.error (httpStatusError 404 ("Not Found")) : Except Err Nat)) 3
        = ⟨.error (httpStatusError 404 ("Not Found")), 1, []⟩ := by
  refine ⟨?_, ?_, by decide, by decide, ?_⟩
  · intro e
    rw [isRetryableError]
    cases hi : e.isErrorInstance with
    | false => simp [hi]
    | true => simp [hi, or_assoc]
  · intro e hi
    rw [isRetryableError]
    simp [hi]
  · exact withRetryGo_nonretry _ 0 3 _ rfl (by decide)

/-- Witness for C4: instantiating the characterisation at a concrete DNS
failure and at a non-`Error` throw. -/
theorem C4_witness :
    isRetryableError ⟨("getaddrinfo ENOTFOUND example.com"), true, none⟩ = true
    ∧ isRetryableError ⟨("timeout"), false, none⟩ = false := by
  constructor
  · exact (C4_isRetryable_amended.1 ⟨("getaddrinfo ENOTFOUND example.com"), true, none⟩).mpr
      ⟨rfl, Or.inr (Or.inr (Or.inl (by decide)))⟩
  · exact C4_isRetryable_amended.2.1 ⟨("timeout"), false, none⟩ rfl

/-! ### C2: detail-page cache round trip -/

lemma getCachedComic_hit (cache : Cache) (now : Nat) (key : String) (entry : CacheEntry)
    (h : cache key = some entry) (hfresh : ¬(now - entry.timestamp > CACHE_TTL)) :
    getCachedComic cache now key = (some entry.data, cache) := by
  simp only [getCachedComic, h]
  rw [if_neg hfresh]

lemma getCachedComic_expired (cache : Cache) (now : Nat) (key : String) (entry : CacheEntry)
    (h : cache key = some entry) (hexp : now - entry.timestamp > CACHE_TTL) :
    getCachedComic cache now key = (none, fun k => if k = key then none else cache k) := by
  simp only [getCachedComic, h]
  rw [if_pos hexp]

lemma getCachedComic_miss (cache : Cache) (now : Nat) (key : String)
    (h : cache key = none) : getCachedComic cache now key = (none, cache) := by
  simp only [getCachedComic, h]

/-- C2: under the key `comicId:title[:variantId]`: (hit) while
`now - timestamp` does not exceed the 4-day TTL, `getComic` returns the
cached `{html, url}` unchanged with zero network attempts; (expired) once
`now - timestamp` exceeds the TTL, a single successful fetch happens and the
entry is overwritten with the fresh result stamped `now`; (miss) a first
successful fetch stores `{html, finalUrl}` under the key; (expired, failing)
an expired entry is deleted even when the refetch fails non-retryably, and
the error propagates. -/
theorem C2_getComic_cache (net : Nat → Except Err String) (cache : Cache) (now : Nat)
    (comicId : Int) (title : String) (variantId : Option String) (retries : Nat) :
    (∀ entry, cache (getCacheKey comicId title variantId) = some entry →
      now - entry.timestamp ≤ CACHE_TTL →
      getComic net cache now comicId title variantId retries
        = ⟨.ok entry.data, cache, 0, []⟩)
    ∧ (∀ entry html, cache (getCacheKey comicId title variantId) = some entry →
      now - entry.timestamp > CACHE_TTL → net 0 = .ok html →
      (getComic net cache now comicId title variantId retries).result
        = .ok (html, comicFinalUrl comicId title variantId)
      ∧ (getComic net cache now comicId title variantId retries).networkAttempts = 1
      ∧ (getComic net cache now comicId title variantId retries).cache
          (getCacheKey comicId title variantId)
        = some ⟨(html, comicFinalUrl comicId title variantId), now⟩)
    ∧ (∀ html, cache (getCacheKey comicId title variantId) = none → net 0 = .ok html →
      (getComic net cache now comicId title variantId retries).result
        = .ok (html, comicFinalUrl comicId title variantId)
      ∧ (getComic net cache now comicId title variantId retries).networkAttempts = 1
      ∧ (getComic net cache now comicId title variantId retries).cache
          (getCacheKey comicId title variantId)
        = some ⟨(html, comicFinalUrl comicId title variantId), now⟩)
    ∧ (∀ entry e, cache (getCacheKey comicId title variantId) = some entry →
      now - entry.timestamp > CACHE_TTL → net 0 = .error e → isRetryableError e = false →
      (getComic net cache now comicId title variantId retries).result = .error e
      ∧ (getComic net cache now comicId title variantId retries).cache
          (getCacheKey comicId title variantId) = none) := by
  refine ⟨?_, ?_, ?_, ?_⟩
  · intro entry hentry hfresh
    simp only [getComic, getCachedComic_hit cache now _ entry hentry (by omega)]
  · intro entry html hentry hexp hnet
    have hfn : (fun a => Except.map
        (fun h => (h, comicFinalUrl comicId title variantId)) (net a)) 0
        = .ok (html, comicFinalUrl comicId title variantId) := by
      simp only [hnet]; rfl
    have hrun : withRetry (fun a => Except.map
        (fun h => (h, comicFinalUrl comicId title variantId)) (net a)) retries
        = ⟨.ok (html, comicFinalUrl comicId title variantId), 1, []⟩ :=
      withRetryGo_ok _ 0 retries _ hfn
    refine ⟨?_, ?_, ?_⟩ <;>
      simp [getComic, getCachedComic_expired cache now _ entry hentry hexp, hrun,
        setCachedComic]
  · intro html hmiss hnet
    have hfn : (fun a => Except.map
        (fun h => (h, comicFinalUrl comicId title variantId)) (net a)) 0
        = .ok (html, comicFinalUrl comicId title variantId) := by
      simp only [hnet]; rfl
    have hrun : withRetry (fun a => Except.map
        (fun h => (h, comicFinalUrl comicId title variantId)) (net a)) retries
        = ⟨.ok (html, comicFinalUrl comicId title variantId), 1, []⟩ :=
      withRetryGo_ok _ 0 retries _ hfn
    refine ⟨?_, ?_, ?_⟩ <;>
      simp [getComic, getCachedComic_miss cache now _ hmiss, hrun, setCachedComic]
  · intro entry e hentry hexp hnet hnr
    have hfn : (fun a => Except.map
        (fun h => (h, comicFinalUrl comicId title variantId)) (net a)) 0
        = .error e := by
      simp only [hnet]; rfl
    have hrun : withRetry (fun a => Except.map
        (fun h => (h, comicFinalUrl comicId title variantId)) (net a)) retries
        = ⟨.error e, 1, []⟩ :=
      withRetryGo_nonretry _ 0 retries e hfn hnr
    constructor <;>
      simp [getComic, getCachedComic_expired cache now _ entry hentry hexp, hrun]

def c2cache : Cache :=
  fun k => if k = ("12:slug") then some ⟨(("h"), ("u")), 0⟩ else none

def c2net : Nat → Except Err String := fun _ => .ok ("fresh")

/-- Witness for C2 at a concrete cache, clock and network. -/
theorem C2_witness :
    getComic c2net c2cache 5 12 ("slug") none 3
      = ⟨.ok (("h"), ("u")), c2cache, 0, []⟩
    ∧ (getComic c2net c2cache (CACHE_TTL + 1) 12 ("slug") none 3).cache ("12:slug")
      = some ⟨(("fresh"), comicFinalUrl 12 ("slug") none), CACHE_TTL + 1⟩ := by
  constructor
  · exact (C2_getComic_cache c2net c2cache 5 12 ("slug") none 3).1
      ⟨(("h"), ("u")), 0⟩ (by decide) (by decide)
  · exact ((C2_getComic_cache c2net c2cache (CACHE_TTL + 1) 12 ("slug") none 3).2.1
      ⟨(("h"), ("u")), 0⟩ ("fresh") (by decide) (by decide) rfl).2.2

/-! ### C8: creators are deduplicated by (name, role, url, type) -/

lemma uniqueCreatorsGo_spec (cs : List Creator) :
    ∀ seen : List String,
      (uniqueCreatorsGo seen cs).Pairwise (fun a b => creatorKey a ≠ creatorKey b)
      ∧ ∀ c ∈ uniqueCreatorsGo seen cs, creatorKey c ∉ seen := by
  induction cs with
  | nil => intro seen; exact ⟨List.Pairwise.nil, by simp [uniqueCreatorsGo]⟩
  | cons c cs ih =>
    intro seen
    by_cases hmem : creatorKey c ∈ seen
    · rw [uniqueCreatorsGo, if_pos hmem]
      exact ih seen
    · rw [uniqueCreatorsGo, if_neg hmem]
      obtain ⟨hpw, hni⟩ := ih (creatorKey c :: seen)
      refine ⟨List.Pairwise.cons ?_ hpw, ?_⟩
      · intro b hb
        have := hni b hb
        simp only [List.mem_cons] at this
        intro hk
        exact this (Or.inl hk.symm)
      · intro d hd
        rcases List.mem_cons.mp hd with h | h
        · subst h; exact hmem
        · have := hni d h
          simp only [List.mem_cons] at this
          intro hk
          exact this (Or.inr hk)

lemma creatorKey_congr (a b : Creator) (h : a.name = b.name ∧ a.role = b.role
    ∧ a.url = b.url ∧ a.type = b.type) : creatorKey a = creatorKey b := by
  obtain ⟨h1, h2, h3, h4⟩ := h
  rw [creatorKey, creatorKey, h1, h2, h3, h4]

def c8creatorNode (nm : String) : Node :=
  .elem ("div") [(("class"), ("col-auto"))]
    [.elem ("div") [(("class"), ("name"))]
      [.elem ("a") [(("href"), ("/p"))] [.text nm]],
     .elem ("div") [(("class"), ("role"))] [.text ("Writer")]]

/-- Two different root-level grouping sections (`#creators-a`, `#creators-b`)
containing structurally identical creator nodes. -/
def c8doc : Node :=
  .elem ("root") []
    [.elem ("section") [(("id"), ("creators-a"))]
      [.elem ("div") [(("class"), ("row"))] [c8creatorNode ("Jane")]],
     .elem ("section") [(("id"), ("creators-b"))]
      [.elem ("div") [(("class"), ("row"))] [c8creatorNode ("Jane")]]]

/-- C8: in every extracted `ComicDetails`, no two creators share the
composite key (name, role, url, type); and on a document in which two
different grouping sections carry identical creator nodes, exactly one
`Creator` is emitted (after the raw pass collected two). -/
theorem C8_creators_deduplicated :
    (∀ parse now root,
      ((extractComicDetails parse now root).creators).Pairwise
        (fun a b => ¬(a.name = b.name ∧ a.role = b.role ∧ a.url = b.url ∧ a.type = b.type)))
    ∧ creatorsOf c8doc =
        [⟨("Jane"), ("Writer"), ("https://leagueofcomicgeeks.com/p"), ("creator")⟩,
         ⟨("Jane"), ("Writer"), ("https://leagueofcomicgeeks.com/p"), ("creator")⟩]
    ∧ (extractComicDetails (fun _ => none) 0 c8doc).creators =
        [⟨("Jane"), ("Writer"), ("https://leagueofcomicgeeks.com/p"), ("creator")⟩] := by
  refine ⟨?_, by decide, by decide⟩
  · intro parse now root
    have h := (uniqueCreatorsGo_spec (creatorsOf root) []).1
    have hc : (extractComicDetails parse now root).creators
        = uniqueCreators (creatorsOf root) := rfl
    rw [hc, uniqueCreators]
    exact h.imp (fun {a b} hk hcomp => hk (creatorKey_congr a b hcomp))

/-! ### C3: extraction never raises; defaults on missing or unparsable fields -/

/-- The document tree cheerio produces for markup with no recognised
structural anchors (e.g. the empty string). -/
def emptyDoc : Node :=
  .elem ("root") [] [.elem ("html") [] [.elem ("head") [] [], .elem ("body") [] []]]

/-- A listing document whose single item has an unparsable `data-comic`. -/
def c3doc : Node :=
  .elem ("root") [] [.elem ("div") [(("id"), ("comic-list-issues"))]
    [.elem ("li") [(("class"), ("issue")), (("data-comic"), ("abc"))] []]]

/-- C3 counterexample: a present but unparsable numeric attribute does not
fall back to the documented default 0 — the entry's id is `NaN`
(modelled `none`). -/
theorem C3_counterexample :
    (extractComicData (fun _ => none) 0 c3doc).map ComicData.id = [none]
    ∧ ([(none : Option Int)] ≠ [some 0]) :=
  ⟨by decide, by decide⟩

/-- C3 amended: both extraction functions are total (never raise), and every
field whose structural anchor is missing takes its documented default —
witnessed on the anchor-free document: empty strings, zeros, `Unknown`,
`null`/`undefined` (`none`), and the current date for the release date; the
one exception to the claim is a *present but unparsable* numeric data
attribute in the list extractor (`parseInt` without a `|| 0` guard), which
yields `NaN` (`none`) instead of 0. -/
theorem C3_extraction_defaults :
    (∀ parse now, extractComicData parse now emptyDoc = [])
    ∧ (∀ parse now, extractComicDetails parse now emptyDoc =
        { id := some 0, title := "", issueNumber := "", publisher := "", description := "",
          coverDate := "", releaseDate := now, pages := some 0, price := some 0,
          format := ("Unknown"), upc := none, isbn := none, distributorSku := "",
          finalOrderCutoff := "", coverImage := "", url := "", rating := some 0,
          ratingCount := some 0, ratingText := "", pulls := some 0, collected := some 0,
          read := some 0, wanted := some 0, seriesUrl := "", creators := [],
          characters := [], variants := [], stories := [], previousIssueUrl := none,
          nextIssueUrl := none })
    ∧ (∀ parse now (item : LNode) (s : String),
        attrOfN item.node ("data-comic") = some s → s ≠ "" → jsParseInt s = none →
        (extractComicItem parse now item).id = none) := by
  refine ⟨fun parse now => rfl, fun parse now => rfl, ?_⟩
  intro parse now item s hattr hs hnan
  have hid : (extractComicItem parse now item).id
      = jsParseInt (jsOrElse (attrOfN item.node ("data-comic")) ("0")) := rfl
  rw [hid, hattr]
  simp only [jsOrElse]
  rw [if_neg hs]
  exact hnan

/-! ### C9: determinism of detail extraction across runs -/

/-- C9 counterexample: on markup whose release-date text is missing, the
fallback is the *call-time* clock, so two runs at different instants give
structurally different entities. -/
theorem C9_counterexample :
    extractComicDetails (fun _ => none) 0 emptyDoc
      ≠ extractComicDetails (fun _ => none) 1 emptyDoc := by
  decide

/-- C9 amended: two runs of `extractComicDetails` on the same markup are
structurally equal whenever the release-date text is non-empty and accepted
by the runtime date parser (so the current-time fallback is not taken); in
particular the result does not depend on the call-time clock in that case.
(When the fallback is taken, equality holds only for runs observing the same
clock value.) -/
theorem C9_extractDetails_deterministic (parse : String → Option Int)
    (now₁ now₂ : Int) (root : Node) (d : Int)
    (hne : jsTrimS (releaseDateTextOf root) ≠ "")
    (h : parse (stripOrdS (releaseDateTextOf root)) = some d) :
    extractComicDetails parse now₁ root = extractComicDetails parse now₂ root := by
  have hrd : ∀ n : Int, parseComicDate parse n (releaseDateTextOf root) = d := by
    intro n
    rw [parseComicDate, if_neg, h]
    rintro (h1 | h1)
    · exact hne (by rw [h1]; rfl)
    · exact hne h1
  unfold extractComicDetails
  simp only [hrd]

/-- A detail document with one `.header-intro` link holding a date text. -/
def c9doc : Node :=
  .elem ("root") []
    [.elem ("div") [(("class"), ("header-intro"))]
      [.elem ("a") [(("href"), ("/pub"))] [.text ("May 1, 2020")]]]

def c9parse : String → Option Int :=
  fun s => if s = ("May 1, 2020") then some 1588300000000 else none

/-- Witness for C9 at a concrete document whose date text parses. -/
theorem C9_witness :
    extractComicDetails c9parse 0 c9doc = extractComicDetails c9parse 1 c9doc :=
  C9_extractDetails_deterministic c9parse 0 1 c9doc 1588300000000
    (by decide) (by decide)

/-! ### C10: variant annotation of listing entries -/

lemma digit_not_ws (c : Char) (h : c.isDigit = true) : isJsWs c = false :=
  isDigitOrDot_not_ws c (by simp [isDigitOrDot, h])

lemma readSign_of_head_digit (l : List Char) (h : ∀ c ∈ l, c.isDigit = true) :
    readSign l = (false, l) := by
  cases l with
  | nil => rfl
  | cons c rest =>
    have hc : c.isDigit = true := h c (List.mem_cons_self c rest)
    have h1 : c ≠ '-' := fun hh => by subst hh; exact absurd hc (by decide)
    have h2 : c ≠ '+' := fun hh => by subst hh; exact absurd hc (by decide)
    simp [readSign, h1, h2]

/-- On a nonempty all-decimal-digit string, `parseInt` with and without the
radix argument agree (the hexadecimal auto-detection cannot fire). -/
lemma jsParseInt_digits (s : String) (h : ∀ c ∈ s.data, c.isDigit = true) (hne : s ≠ "") :
    jsParseInt s = some ((digitsToNat s.data : Int))
    ∧ jsParseIntR10 s = some ((digitsToNat s.data : Int)) := by
  have hdw : s.data.dropWhile isJsWs = s.data :=
    dropWhile_ws_eq_self s.data (fun c hc => digit_not_ws c (h c hc))
  have hrs : readSign s.data = (false, s.data) := readSign_of_head_digit s.data h
  have htw : s.data.takeWhile Char.isDigit = s.data :=
    List.takeWhile_eq_self_iff.mpr h
  have hempty : s.data.isEmpty = false := by
    cases hd : s.data with
    | nil => exact absurd (String.ext hd) hne
    | cons c rest => rfl
  have hhex : (startsWithL s.data (['0', 'x']) || startsWithL s.data (['0', 'X'])) = false := by
    cases hd : s.data with
    | nil => rfl
    | cons c1 rest =>
      cases rest with
      | nil => simp [startsWithL]
      | cons c2 rest2 =>
        have h2 : c2.isDigit = true := h c2 (by rw [hd]; simp)
        have hx : c2 ≠ 'x' := fun hh => by subst hh; exact absurd h2 (by decide)
        have hX : c2 ≠ 'X' := fun hh => by subst hh; exact absurd h2 (by decide)
        simp [startsWithL, hx, hX]
  constructor
  · rw [jsParseInt]
    simp only [hdw, hrs, hhex, htw, hempty, Bool.false_eq_true, if_false, intOfNeg]
  · rw [jsParseIntR10]
    simp only [hdw, hrs, htw, hempty, Bool.false_eq_true, if_false, intOfNeg]

/-- C10 amended: `parentId` and `variantId` are present together or absent
together, present exactly when the `data-parent` attribute exists, is
*non-empty*, and differs from `"0"`; when present, `variantId` is the
radix-10 parse of the `data-comic` attribute, which coincides with the
entry's own `id` (a bare `parseInt` of the same attribute) whenever that
attribute is a plain decimal numeral; and `variantName` is set only to a
non-empty variant-name text, only on variant entries. -/
theorem C10_variant_fields_amended (parse : String → Option Int) (now : Int) (item : LNode) :
    ((extractComicItem parse now item).parentId = none
      ↔ (extractComicItem parse now item).variantId = none)
    ∧ ((extractComicItem parse now item).parentId ≠ none
      ↔ ∃ pv, attrOfN item.node ("data-parent") = some pv ∧ pv ≠ "" ∧ pv ≠ "0")
    ∧ (∀ pv, attrOfN item.node ("data-parent") = some pv → pv ≠ "" → pv ≠ "0" →
        (extractComicItem parse now item).parentId = some (jsParseIntR10 pv)
        ∧ (extractComicItem parse now item).variantId
          = some (jsParseIntR10 (jsOrElse (attrOfN item.node ("data-comic")) ("0"))))
    ∧ (∀ pv s, attrOfN item.node ("data-parent") = some pv → pv ≠ "" → pv ≠ "0" →
        attrOfN item.node ("data-comic") = some s →
        (∀ c ∈ s.data, c.isDigit = true) → s ≠ "" →
        (extractComicItem parse now item).variantId
          = some ((extractComicItem parse now item).id))
    ∧ (∀ vn, (extractComicItem parse now item).variantName = some vn →
        vn ≠ "" ∧ (extractComicItem parse now item).parentId ≠ none) := by
  cases hA : attrOfN item.node ("data-parent") with
  | none =>
    have hP : (extractComicItem parse now item).parentId = none := by
      simp [extractComicItem, hA]
    have hV : (extractComicItem parse now item).variantId = none := by
      simp [extractComicItem, hA]
    have hN : (extractComicItem parse now item).variantName = none := by
      simp [extractComicItem, hA]
    refine ⟨by simp [hP, hV], by simp [hP], ?_, ?_, ?_⟩
    · intro pv hpv; exact Option.noConfusion hpv
    · intro pv s hpv; exact Option.noConfusion hpv
    · intro vn hvn; exact absurd (hN.symm.trans hvn) (by simp)
  | some p =>
    by_cases hp1 : p = ""
    · subst hp1
      have hP : (extractComicItem parse now item).parentId = none := by
        simp [extractComicItem, hA]
      have hV : (extractComicItem parse now item).variantId = none := by
        simp [extractComicItem, hA]
      have hN : (extractComicItem parse now item).variantName = none := by
        simp [extractComicItem, hA]
      refine ⟨by simp [hP, hV], by simp [hP], ?_, ?_, ?_⟩
      · intro pv hpv hne
        exact absurd (Option.some.inj hpv).symm hne
      · intro pv s hpv hne
        exact absurd (Option.some.inj hpv).symm hne
      · intro vn hvn; exact absurd (hN.symm.trans hvn) (by simp)
    · by_cases hp2 : p = ("0")
      · subst hp2
        have hP : (extractComicItem parse now item).parentId = none := by
          simp [extractComicItem, hA]
        have hV : (extractComicItem parse now item).variantId = none := by
          simp [extractComicItem, hA]
        have hN : (extractComicItem parse now item).variantName = none := by
          simp [extractComicItem, hA]
        refine ⟨by simp [hP, hV], by simp [hP], ?_, ?_, ?_⟩
        · intro pv hpv hne h0
          exact absurd (Option.some.inj hpv).symm h0
        · intro pv s hpv hne h0
          exact absurd (Option.some.inj hpv).symm h0
        · intro vn hvn; exact absurd (hN.symm.trans hvn) (by simp)
      · have hb : (p != "" && p != ("0")) = true := by
          simp [bne_iff_ne, hp1, hp2]
        have hP : (extractComicItem parse now item).parentId
            = some (jsParseIntR10 p) := by
          simp [extractComicItem, hA, hb]
        have hV : (extractComicItem parse now item).variantId
            = some (jsParseIntR10 (jsOrElse (attrOfN item.node ("data-comic")) ("0"))) := by
          simp [extractComicItem, hA, hb]
        have hId : (extractComicItem parse now item).id
            = jsParseInt (jsOrElse (attrOfN item.node ("data-comic")) ("0")) := rfl
        refine ⟨by simp [hP, hV], by simp [hP, hA, hp1, hp2], ?_, ?_, ?_⟩
        · intro pv hpv hne h0
          have hppv : p = pv := Option.some.inj hpv
          subst hppv
          exact ⟨hP, hV⟩
        · intro pv s hpv hne h0 hcomic hdig hsne
          rw [hV, hId, hcomic]
          have hOr : jsOrElse (some s) ("0") = s := by
            simp [jsOrElse, hsne]
          rw [hOr]
          rw [(jsParseInt_digits s hdig hsne).1, (jsParseInt_digits s hdig hsne).2]
        · intro vn hvn
          have hNdef : (extractComicItem parse now item).variantName
              = (if (jsTrimS (textOfSet (findIn (findIn [item] selTitleA) selVariantName)) != "")
                  = true
                then some (jsTrimS (textOfSet (findIn (findIn [item] selTitleA) selVariantName)))
                else none) := by
            simp [extractComicItem, hA, hb]
          rw [hNdef] at hvn
          by_cases hvne : (jsTrimS (textOfSet (findIn (findIn [item] selTitleA) selVariantName)) != "") = true
          · rw [if_pos hvne] at hvn
            refine ⟨?_, by simp [hP]⟩
            have := Option.some.inj hvn
            rw [← this]
            exact bne_iff_ne.mp hvne
          · rw [if_neg hvne] at hvn
            exact absurd hvn (by simp)

/-- A listing item whose `data-parent` attribute is present but empty. -/
def c10doc : Node :=
  .elem ("root") [] [.elem ("div") [(("id"), ("comic-list-issues"))]
    [.elem ("li") [(("class"), ("issue")), (("data-comic"), ("42")),
      (("data-parent"), (""))] []]]

/-- C10 counterexample: the item's `data-parent` attribute exists and
differs from `"0"` (it is the empty string), yet no variant fields are
emitted — presence is decided by JS truthiness, which treats `""` as
absent. -/
theorem C10_counterexample :
    (queryChain c10doc selListItems).map (fun ln => attrOfN ln.node ("data-parent"))
      = [some ("")]
    ∧ some ("") ≠ some ("0")
    ∧ (extractComicData (fun _ => none) 0 c10doc).map ComicData.parentId = [none]
    ∧ (extractComicData (fun _ => none) 0 c10doc).map (fun c => c.variantId) = [none] :=
  ⟨by decide, by decide, by decide, by decide⟩

def c10item : LNode :=
  ⟨[0, 0], .elem ("li") [(("class"), ("issue")), (("data-comic"), ("42")),
    (("data-parent"), ("7"))] []⟩

/-- Witness for C10 at a concrete variant item. -/
theorem C10_witness :
    (extractComicItem (fun _ => none) 0 c10item).parentId = some (jsParseIntR10 ("7"))
    ∧ (extractComicItem (fun _ => none) 0 c10item).variantId
      = some ((extractComicItem (fun _ => none) 0 c10item).id) := by
  constructor
  · exact ((C10_variant_fields_amended (fun _ => none) 0 c10item).2.2.1 ("7")
      (by decide) (by decide) (by decide)).1
  · exact (C10_variant_fields_amended (fun _ => none) 0 c10item).2.2.2.1 ("7") ("42")
      (by decide) (by decide) (by decide) (by decide) (by decide) (by decide)

def c3item : LNode :=
  ⟨[0, 0], .elem ("li") [(("class"), ("issue")), (("data-comic"), ("abc"))] []⟩

/-- Witness for C3 at a concrete unparsable `data-comic` attribute. -/
theorem C3_witness : (extractComicItem (fun _ => none) 0 c3item).id = none :=
  C3_extraction_defaults.2.2 (fun _ => none) 0 c3item ("abc")
    (by decide) (by decide) (by decide)
